import Mathlib

/-!
Verification of the data acquisition and normalization pipeline of
apewisdomscraper2.py: ranking-page parsing, per-ticker record building,
the sortable ticker store, and the percentage-to-color formatter.

Numbers that the Python program handles as floats are modelled as
rationals; Python dictionaries keyed by ticker are modelled as
insertion-ordered association lists; a fetch function that may raise is
modelled by an explicit Except argument standing for the outcome of its
network interaction.
-/

/-- Model of a parsed ranking entry, as built in fetch_apewisdom_data:
ticker cell text, mentions cell text (kept as a string), and the parsed
sentiment percentage. -/
structure RankingEntry where
  ticker : String
  mentions : String
  sentiment_change : ℚ
deriving DecidableEq, Repr

/-- Model of the dictionary stored for a successfully fetched ticker in
update_data (prices, timestamps, price_change, sentiment_change, mentions). -/
structure ValidData where
  prices : List ℚ
  timestamps : List ℚ
  price_change : ℚ
  sentiment_change : ℚ
  mentions : String
deriving DecidableEq, Repr

/-- Model of a value of the ticker_data dictionary: either the data
dictionary of a successful fetch, or the literal error string sentinel
stored on failure (an ErrorRecord in the words of the specification). -/
inductive TickerRecord where
  | valid (d : ValidData)
  | err (msg : String)
deriving DecidableEq, Repr

/-- Tests whether a record is the error-string sentinel, modelling the
isinstance(data, str) check of get_sort_key. -/
def TickerRecord.isErr : TickerRecord → Bool
  | .valid _ => false
  | .err _ => true

/-- The three sort fields offered by the UI buttons. -/
inductive SortField where
  | mentions
  | price_change
  | sentiment_change
deriving DecidableEq, Repr

/-- Model of the current_sort global: a field and a reverse flag
(reverse = true is descending, the default). -/
structure SortState where
  field : SortField
  reverse : Bool
deriving DecidableEq, Repr

/-- Model of sort_tickers: clicking the field already active toggles the
direction; clicking a new field selects it with direction descending. -/
def sortTickers (field : SortField) (s : SortState) : SortState :=
  if s.field = field then { field := s.field, reverse := !s.reverse }
  else { field := field, reverse := true }

/-- Model of get_color_from_percentage: green channel min(|p|/20, 1) when
p > 0, red channel min(|p|/20, 1) otherwise, remaining channels 0. -/
def getColorFromPercentage (p : ℚ) : ℚ × ℚ × ℚ :=
  if p > 0 then (0, min (|p| / 20) 1, 0)
  else (min (|p| / 20) 1, 0, 0)

/-- Value of a list of decimal digit characters read left to right. -/
def digitsToNat (cs : List Char) : ℕ :=
  cs.foldl (fun n c => 10 * n + (c.toNat - 48)) 0

/-- Parses an unsigned decimal literal (digits with at most one point,
at least one digit). Helper for the model of the float builtin. -/
def parseUnsigned? (body : List Char) : Option ℚ :=
  if body.contains '.' then
    let ip := body.takeWhile (fun c => c ≠ '.')
    let fp := (body.dropWhile (fun c => c ≠ '.')).tail
    if fp.contains '.' then none
    else if ip.all Char.isDigit && fp.all Char.isDigit && (!ip.isEmpty || !fp.isEmpty) then
      some ((digitsToNat ip : ℚ) + (digitsToNat fp : ℚ) / (10 : ℚ) ^ fp.length)
    else none
  else if !body.isEmpty && body.all Char.isDigit then
    some ((digitsToNat body : ℚ))
  else none

/-- Model of the Python float builtin applied to a string, restricted to
plain signed decimal literals: absent (a ValueError) on anything else. -/
def pyFloat? (s : String) : Option ℚ :=
  match s.data with
  | '-' :: rest => (parseUnsigned? rest).map (fun q => -q)
  | '+' :: rest => parseUnsigned? rest
  | cs => parseUnsigned? cs

/-- Model of the str.isdigit method: nonempty and all digit characters. -/
def pyIsdigit (s : String) : Bool :=
  !s.isEmpty && s.data.all Char.isDigit

/-- Model of str.replace applied with the single-character pattern comma
and empty replacement: removes every comma. -/
def stripCommas (s : String) : String :=
  String.mk (s.data.filter (fun c => c ≠ ','))

/-- Model of the cell-grouping loop of fetch_apewisdom_data: cells are
consumed in groups of 3 (rank, ticker, mentions); an incomplete trailing
group is dropped; a group whose ticker text is a pure digit string is
skipped; the running sentiment index advances only on accepted groups and
reads 0 past the end of the sentiment list. -/
def parseGroups (raw : List String) (sentiments : List ℚ) (sIdx : ℕ) : List RankingEntry :=
  match raw with
  | _ :: r1 :: r2 :: rest =>
    if pyIsdigit r1 then parseGroups rest sentiments sIdx
    else { ticker := r1, mentions := r2, sentiment_change := sentiments.getD sIdx 0 } :: parseGroups rest sentiments (sIdx + 1)
  | _ => []

/-- Model of the parsing stage of fetch_apewisdom_data after cell
extraction: the group loop followed by truncation to the first 10 entries. -/
def parseTickerData (raw : List String) (sentiments : List ℚ) : List RankingEntry :=
  (parseGroups raw sentiments 0).take 10

/-- Model of fetch_apewisdom_data. The Except argument stands for the
outcome of the guarded network and HTML work: an error is any exception
inside the try block (network failure, the raise_for_status of a non-2xx
response, or a parse exception) and is converted to an absent result; a
success carries the first cell texts of class td-right and the sentiment
span parses, an unparseable span contributing none (mapped to 0.0). -/
def fetchApewisdomData (resp : Except String (List String × List (Option ℚ))) :
    Option (List RankingEntry) :=
  match resp with
  | .error _ => none
  | .ok (cells, spans) =>
      some (parseTickerData (cells.take 30) (spans.map (fun o => o.getD 0)))

/-- Model of the per-ticker record construction inside the update_data
loop, lines 135 to 149: when both the prices and the timestamps of the
fetch are present and nonempty, price_change is computed from the last and
first price, a division that raises an uncaught ZeroDivisionError (the
Except.error case) when the first price is 0; otherwise the error string
sentinel is stored. -/
def buildRecord (entry : RankingEntry) (prices timestamps : Option (List ℚ)) :
    Except String TickerRecord :=
  match prices, timestamps with
  | some (p :: ps), some (t :: ts) =>
      if p = 0 then Except.error "ZeroDivisionError"
      else
        Except.ok (TickerRecord.valid
          { prices := p :: ps
            timestamps := t :: ts
            price_change := ((p :: ps).getLast (List.cons_ne_nil p ps) - p) / p * 100
            sentiment_change := entry.sentiment_change
            mentions := entry.mentions })
  | _, _ => Except.ok (TickerRecord.err "Error fetching data")

/-- Model of assignment into the ticker_data dictionary: overwriting an
existing key keeps its position, a new key is appended. -/
def dictInsert (l : List (String × TickerRecord)) (k : String) (v : TickerRecord) :
    List (String × TickerRecord) :=
  if l.any (fun p => p.1 = k) then l.map (fun p => if p.1 = k then (k, v) else p)
  else l ++ [(k, v)]

/-- Model of the body of the update_data loop over all ranking entries,
starting from the cleared dictionary and propagating the first uncaught
exception of buildRecord. -/
def buildAll (entries : List RankingEntry)
    (fetchStock : String → Option (List ℚ) × Option (List ℚ)) :
    Except String (List (String × TickerRecord)) :=
  entries.foldlM
    (fun acc item =>
      match buildRecord item (fetchStock item.ticker).1 (fetchStock item.ticker).2 with
      | .ok r => Except.ok (dictInsert acc item.ticker r)
      | .error e => Except.error e)
    []

/-- Outcome of one update_data call: aborted with the store untouched
(fetch returned an absent or empty ranking), updated with a fresh store,
or crashed by an uncaught exception. -/
inductive RefreshResult where
  | aborted (store : List (String × TickerRecord))
  | updated (store : List (String × TickerRecord))
  | crashed (exn : String)
deriving DecidableEq, Repr

/-- Model of update_data: when the ranking fetch yields no data (absent or
an empty list), the function returns before ticker_data is cleared, so the
store keeps its previous generation; otherwise the store is rebuilt from
scratch. -/
def updateData (resp : Except String (List String × List (Option ℚ)))
    (fetchStock : String → Option (List ℚ) × Option (List ℚ))
    (store : List (String × TickerRecord)) : RefreshResult :=
  match fetchApewisdomData resp with
  | none => RefreshResult.aborted store
  | some [] => RefreshResult.aborted store
  | some (e :: es) =>
      match buildAll (e :: es) fetchStock with
      | .ok s => RefreshResult.updated s
      | .error exn => RefreshResult.crashed exn

/-- Model of get_sort_key in sorted_ticker_data: the error sentinel gets
negative infinity (the bottom of WithBot); for a valid record the mentions
field is parsed as a float after removing commas, with an unparseable
value also falling to negative infinity, and the numeric fields are used
directly. -/
def getSortKey (field : SortField) (d : TickerRecord) : WithBot ℚ :=
  match d with
  | .err _ => ⊥
  | .valid v =>
    match field with
    | .mentions =>
      match pyFloat? (stripCommas v.mentions) with
      | some q => (q : WithBot ℚ)
      | none => ⊥
    | .price_change => (v.price_change : WithBot ℚ)
    | .sentiment_change => (v.sentiment_change : WithBot ℚ)

/-- Boolean comparator realizing the Python sorted call of
sorted_ticker_data: a stable sort on the extracted key, descending when
reverse is set (ties keep insertion order in both directions). -/
def sortCmp (sort : SortState) (a b : String × TickerRecord) : Bool :=
  if sort.reverse then decide (getSortKey sort.field b.2 ≤ getSortKey sort.field a.2)
  else decide (getSortKey sort.field a.2 ≤ getSortKey sort.field b.2)

/-- Model of sorted_ticker_data: the items of the store, stably sorted by
the extracted key in the direction of the current sort state. -/
def sortedTickerData (sort : SortState) (items : List (String × TickerRecord)) :
    List (String × TickerRecord) :=
  items.mergeSort (sortCmp sort)

/-- Model of get_next_ticker: finds the position of the given ticker among
the dictionary keys in insertion order and returns the row id string of
the following key; absent when the ticker is last or not present. -/
def getNextTicker (store : List (String × TickerRecord)) (current : String) :
    Option String :=
  let tickers := store.map Prod.fst
  match tickers.findIdx? (fun t => t == current) with
  | none => none
  | some i =>
      if i < tickers.length - 1 then (tickers[i + 1]?).map (fun t => "row_" ++ t)
      else none

/-- The error sentinel always extracts the bottom sort key. -/
theorem isErr_key (f : SortField) (d : TickerRecord) (h : d.isErr = true) :
    getSortKey f d = ⊥ := by
  cases d with
  | valid v => simp [TickerRecord.isErr] at h
  | err m => rfl

/-- The sort comparator is transitive. -/
theorem sortCmp_trans (s : SortState) (a b c : String × TickerRecord)
    (h1 : sortCmp s a b = true) (h2 : sortCmp s b c = true) : sortCmp s a c = true := by
  cases hr : s.reverse
  · simp [sortCmp, hr] at h1 h2 ⊢
    exact le_trans h1 h2
  · simp [sortCmp, hr] at h1 h2 ⊢
    exact le_trans h2 h1

/-- The sort comparator is total. -/
theorem sortCmp_total (s : SortState) (a b : String × TickerRecord) :
    (sortCmp s a b || sortCmp s b a) = true := by
  cases hr : s.reverse
  · simp [sortCmp, hr]
    exact le_total _ _
  · simp [sortCmp, hr]
    exact le_total _ _

/-- Every sorted view is pairwise ordered by the sort comparator. -/
theorem sorted_sortedTickerData (s : SortState) (items : List (String × TickerRecord)) :
    (sortedTickerData s items).Pairwise (fun a b => sortCmp s a b = true) :=
  List.sorted_mergeSort (sortCmp_trans s) (sortCmp_total s) items

/-- C1: for every price series with at least 2 points and a nonzero first
price, building the record yields a valid record whose price_change is
exactly (last price - first price) / first price * 100; the construction
is a pure function of its inputs, hence deterministic. -/
theorem buildRecord_priceChangeFormula (entry : RankingEntry) (p : ℚ) (ps ts : List ℚ)
    (hlen2 : 2 ≤ (p :: ps).length) (hts : (p :: ps).length = ts.length) (hp : p ≠ 0) :
    buildRecord entry (some (p :: ps)) (some ts) =
      Except.ok (TickerRecord.valid
        { prices := p :: ps
          timestamps := ts
          price_change := ((p :: ps).getLast (List.cons_ne_nil p ps) - p) / p * 100
          sentiment_change := entry.sentiment_change
          mentions := entry.mentions }) := by
  cases ts with
  | nil => simp at hts
  | cons t tl => simp [buildRecord, hp]

/-- Witness for C1 at the series prices [2, 3], timestamps [0, 1]. -/
theorem buildRecord_priceChangeFormula_witness :
    buildRecord { ticker := "AMC", mentions := "1,000", sentiment_change := 3 }
        (some [2, 3]) (some [0, 1]) =
      Except.ok (TickerRecord.valid
        { prices := [2, 3]
          timestamps := [0, 1]
          price_change := (([(2 : ℚ), 3]).getLast (List.cons_ne_nil 2 [3]) - 2) / 2 * 100
          sentiment_change := 3
          mentions := "1,000" }) :=
  buildRecord_priceChangeFormula { ticker := "AMC", mentions := "1,000", sentiment_change := 3 }
    2 [3] [0, 1] (by decide) rfl (by norm_num)

/-- Counterexample to C2: a series with a single point (fewer than 2) does
not produce the error sentinel but a valid record with price_change 0, and
a nonempty series whose first price is 0 does not produce the error
sentinel either but an uncaught ZeroDivisionError. -/
theorem buildRecord_onePoint_counterexample :
    buildRecord { ticker := "AAA", mentions := "10", sentiment_change := 0 }
        (some [5]) (some [0]) =
      Except.ok (TickerRecord.valid
        { prices := [5], timestamps := [0], price_change := 0,
          sentiment_change := 0, mentions := "10" })
    ∧ buildRecord { ticker := "AAA", mentions := "10", sentiment_change := 0 }
        (some [0, 1]) (some [0, 1]) = Except.error "ZeroDivisionError" := by
  constructor
  · simp [buildRecord]
  · rfl

/-- C2 as amended: the record is the error sentinel exactly when the price
list or the timestamp list from the fetch is absent or empty; on a
nonempty series whose first price is 0 the division raises an uncaught
ZeroDivisionError; otherwise (a nonempty series with nonzero first price,
a single point included) a valid record is produced. -/
theorem buildRecord_errorCases (entry : RankingEntry) (prices ts : Option (List ℚ)) :
    (buildRecord entry prices ts = Except.ok (TickerRecord.err "Error fetching data") ↔
      prices = none ∨ ts = none ∨ prices = some [] ∨ ts = some [])
    ∧ (∀ (p : ℚ) (psl : List ℚ) (t : ℚ) (tl : List ℚ),
        (p = 0 → buildRecord entry (some (p :: psl)) (some (t :: tl)) =
          Except.error "ZeroDivisionError")
        ∧ (p ≠ 0 → buildRecord entry (some (p :: psl)) (some (t :: tl)) =
            Except.ok (TickerRecord.valid
              { prices := p :: psl
                timestamps := t :: tl
                price_change := ((p :: psl).getLast (List.cons_ne_nil p psl) - p) / p * 100
                sentiment_change := entry.sentiment_change
                mentions := entry.mentions }))) := by
  constructor
  · rcases prices with _ | ⟨_ | ⟨p, psl⟩⟩ <;> rcases ts with _ | ⟨_ | ⟨t, tl⟩⟩ <;>
      simp [buildRecord]
    by_cases hp : p = 0 <;> simp [hp]
  · intro p psl t tl
    constructor
    · intro hp
      simp [buildRecord, hp]
    · intro hp
      simp [buildRecord, hp]

/-- Witness for C2: the absent-series case and the zero-first-price case
at concrete inputs. -/
theorem buildRecord_errorCases_witness :
    buildRecord { ticker := "AAA", mentions := "10", sentiment_change := 0 } none none =
      Except.ok (TickerRecord.err "Error fetching data")
    ∧ buildRecord { ticker := "AAA", mentions := "10", sentiment_change := 0 }
        (some [0]) (some [7]) = Except.error "ZeroDivisionError" :=
  ⟨(buildRecord_errorCases { ticker := "AAA", mentions := "10", sentiment_change := 0 }
      none none).1.mpr (Or.inl rfl),
   ((buildRecord_errorCases { ticker := "AAA", mentions := "10", sentiment_change := 0 }
      (some [0]) (some [7])).2 0 [] 7 []).1 rfl⟩

/-- C4: requesting a sort on the active field flips only the direction (so
two requests restore the original state); requesting a different field
selects it with direction descending, whatever the prior direction. -/
theorem sortTickers_togglePolicy (s : SortState) (f : SortField) :
    (s.field = f →
      sortTickers f s = { field := s.field, reverse := !s.reverse }
      ∧ sortTickers f (sortTickers f s) = s)
    ∧ (s.field ≠ f → sortTickers f s = { field := f, reverse := true }) := by
  constructor
  · intro h
    constructor
    · simp [sortTickers, h]
    · cases s with
      | mk sf r => simp_all [sortTickers]
  · intro h
    simp [sortTickers, h]

/-- Witness for C4: toggling twice on the active field restores the state,
and selecting a new field resets to descending. -/
theorem sortTickers_togglePolicy_witness :
    sortTickers SortField.mentions
        (sortTickers SortField.mentions { field := SortField.mentions, reverse := true }) =
      { field := SortField.mentions, reverse := true }
    ∧ sortTickers SortField.price_change { field := SortField.mentions, reverse := false } =
      { field := SortField.price_change, reverse := true } :=
  ⟨((sortTickers_togglePolicy { field := SortField.mentions, reverse := true }
      SortField.mentions).1 rfl).2,
   (sortTickers_togglePolicy { field := SortField.mentions, reverse := false }
      SortField.price_change).2 (by decide)⟩

/-- C5: the color triple always has components in [0, 1]; a positive
percentage gives the green channel min(|p|/20, 1) and a non-positive one
(0 included) the red channel min(|p|/20, 1); the boundary values of the
specification hold, with 40 clamped to the same color as 20. -/
theorem getColorFromPercentage_spec (p : ℚ) :
    (0 ≤ (getColorFromPercentage p).1 ∧ (getColorFromPercentage p).1 ≤ 1
      ∧ 0 ≤ (getColorFromPercentage p).2.1 ∧ (getColorFromPercentage p).2.1 ≤ 1
      ∧ 0 ≤ (getColorFromPercentage p).2.2 ∧ (getColorFromPercentage p).2.2 ≤ 1)
    ∧ (0 < p → getColorFromPercentage p = (0, min (|p| / 20) 1, 0))
    ∧ (p ≤ 0 → getColorFromPercentage p = (min (|p| / 20) 1, 0, 0))
    ∧ getColorFromPercentage 0 = (0, 0, 0)
    ∧ getColorFromPercentage 20 = (0, 1, 0)
    ∧ getColorFromPercentage (-20) = (1, 0, 0)
    ∧ getColorFromPercentage 40 = getColorFromPercentage 20 := by
  have h0 : (0 : ℚ) ≤ min (|p| / 20) 1 := le_min (by positivity) zero_le_one
  have h1 : min (|p| / 20) 1 ≤ 1 := min_le_right _ _
  refine ⟨?_, ?_, ?_, ?_, ?_, ?_, ?_⟩
  · by_cases hp : 0 < p
    · simp only [getColorFromPercentage, if_pos hp]
      exact ⟨le_refl 0, zero_le_one, h0, h1, le_refl 0, zero_le_one⟩
    · simp only [getColorFromPercentage, if_neg hp]
      exact ⟨h0, h1, le_refl 0, zero_le_one, le_refl 0, zero_le_one⟩
  · intro hp
    simp only [getColorFromPercentage, if_pos hp]
  · intro hp
    simp only [getColorFromPercentage, if_neg (not_lt.mpr hp)]
  · norm_num [getColorFromPercentage]
  · norm_num [getColorFromPercentage]
  · norm_num [getColorFromPercentage]
  · norm_num [getColorFromPercentage]

/-- Witness for C5 at a positive and a non-positive percentage. -/
theorem getColorFromPercentage_spec_witness :
    getColorFromPercentage 5 = (0, min (|(5 : ℚ)| / 20) 1, 0)
    ∧ getColorFromPercentage (-5) = (min (|(-5 : ℚ)| / 20) 1, 0, 0) :=
  ⟨(getColorFromPercentage_spec 5).2.1 (by norm_num),
   (getColorFromPercentage_spec (-5)).2.2.1 (by norm_num)⟩

/-- Helper fetch stub used by the C6 witness. -/
def noFetch : String → Option (List ℚ) × Option (List ℚ) := fun _ => (none, none)

/-- C6: when the ranking fetch raises (network error, non-2xx status via
raise_for_status, or a parse exception), the fetch function returns an
absent result instead of propagating the exception, and update_data then
returns before touching the store, which keeps its previous generation. -/
theorem refreshAbortsOnFetchFailure (e : String)
    (fetchStock : String → Option (List ℚ) × Option (List ℚ))
    (store : List (String × TickerRecord)) :
    fetchApewisdomData (Except.error e) = none
    ∧ updateData (Except.error e) fetchStock store = RefreshResult.aborted store :=
  ⟨rfl, rfl⟩

/-- Witness for C6 at a concrete failure and prior store. -/
theorem refreshAbortsOnFetchFailure_witness :
    fetchApewisdomData (Except.error "timeout") = none
    ∧ updateData (Except.error "timeout") noFetch [("A", TickerRecord.err "old")] =
      RefreshResult.aborted [("A", TickerRecord.err "old")] :=
  refreshAbortsOnFetchFailure "timeout" noFetch [("A", TickerRecord.err "old")]

/-- C3: every error record keys to the bottom sentinel for every field,
and in every sorted view the error records sit at the extremal end: in a
descending view nothing with a non-bottom key follows an error record, in
an ascending view nothing with a non-bottom key precedes one. -/
theorem errRecords_extremal (f : SortField) (items : List (String × TickerRecord)) :
    (∀ msg, getSortKey f (TickerRecord.err msg) = ⊥)
    ∧ (sortedTickerData { field := f, reverse := true } items).Pairwise
        (fun a b => a.2.isErr = true → getSortKey f b.2 = ⊥)
    ∧ (sortedTickerData { field := f, reverse := false } items).Pairwise
        (fun a b => b.2.isErr = true → getSortKey f a.2 = ⊥) := by
  refine ⟨fun msg => rfl, ?_, ?_⟩
  · refine List.Pairwise.imp ?_
      (sorted_sortedTickerData { field := f, reverse := true } items)
    intro a b hab herr
    have hb : getSortKey f b.2 ≤ getSortKey f a.2 := by simpa [sortCmp] using hab
    rw [isErr_key f a.2 herr] at hb
    exact le_bot_iff.mp hb
  · refine List.Pairwise.imp ?_
      (sorted_sortedTickerData { field := f, reverse := false } items)
    intro a b hab herr
    have ha : getSortKey f a.2 ≤ getSortKey f b.2 := by simpa [sortCmp] using hab
    rw [isErr_key f b.2 herr] at ha
    exact le_bot_iff.mp ha

/-- Witness for C3: a concrete error record keys to the bottom sentinel. -/
theorem errRecords_extremal_witness :
    getSortKey SortField.mentions (TickerRecord.err "Error fetching data") = ⊥ :=
  (errRecords_extremal SortField.mentions []).1 "Error fetching data"

/-- C8: the sorted view is stable in both directions: two records with
equal extracted keys that stand in insertion order in the store stand in
the same relative order in the sorted view. -/
theorem sortedTickerData_stable (sort : SortState) (items : List (String × TickerRecord))
    (a b : String × TickerRecord)
    (hkey : getSortKey sort.field a.2 = getSortKey sort.field b.2)
    (hsub : List.Sublist [a, b] items) :
    List.Sublist [a, b] (sortedTickerData sort items) := by
  show List.Sublist [a, b] (items.mergeSort (sortCmp sort))
  apply List.sublist_mergeSort (sortCmp_trans sort) (sortCmp_total sort) ?_ hsub
  refine List.pairwise_cons.mpr ⟨?_, List.pairwise_singleton _ _⟩
  intro x hx
  rw [List.mem_singleton.mp hx]
  cases hr : sort.reverse <;> simp [sortCmp, hr, hkey]

/-- Witness for C8: two equal-key records keep their insertion order. -/
theorem sortedTickerData_stable_witness :
    List.Sublist
      [("A", TickerRecord.valid
          { prices := [1], timestamps := [1], price_change := 2,
            sentiment_change := 3, mentions := "5" }),
       ("B", TickerRecord.valid
          { prices := [2], timestamps := [2], price_change := 2,
            sentiment_change := 9, mentions := "7" })]
      (sortedTickerData { field := SortField.price_change, reverse := true }
        [("A", TickerRecord.valid
            { prices := [1], timestamps := [1], price_change := 2,
              sentiment_change := 3, mentions := "5" }),
         ("B", TickerRecord.valid
            { prices := [2], timestamps := [2], price_change := 2,
              sentiment_change := 9, mentions := "7" })]) :=
  sortedTickerData_stable _ _ _ _ rfl (List.Sublist.refl _)

/-- C10: a valid record whose mentions text does not parse as a number
after comma stripping keys to the same bottom sentinel as the error
records (no exception is possible, the key extraction is total), and all
bottom-keyed rows sit together at the extremal end of either sorted view. -/
theorem unparseableMentions_sentinel (v : ValidData) (items : List (String × TickerRecord))
    (h : pyFloat? (stripCommas v.mentions) = none) :
    getSortKey SortField.mentions (TickerRecord.valid v) = ⊥
    ∧ (∀ f msg, getSortKey f (TickerRecord.err msg) = ⊥)
    ∧ (sortedTickerData { field := SortField.mentions, reverse := true } items).Pairwise
        (fun a b => getSortKey SortField.mentions a.2 = ⊥ →
          getSortKey SortField.mentions b.2 = ⊥)
    ∧ (sortedTickerData { field := SortField.mentions, reverse := false } items).Pairwise
        (fun a b => getSortKey SortField.mentions b.2 = ⊥ →
          getSortKey SortField.mentions a.2 = ⊥) := by
  refine ⟨?_, fun f msg => rfl, ?_, ?_⟩
  · simp [getSortKey, h]
  · refine List.Pairwise.imp ?_
      (sorted_sortedTickerData { field := SortField.mentions, reverse := true } items)
    intro a b hab ha
    have hb : getSortKey SortField.mentions b.2 ≤ getSortKey SortField.mentions a.2 := by
      simpa [sortCmp] using hab
    rw [ha] at hb
    exact le_bot_iff.mp hb
  · refine List.Pairwise.imp ?_
      (sorted_sortedTickerData { field := SortField.mentions, reverse := false } items)
    intro a b hab hb
    have ha : getSortKey SortField.mentions a.2 ≤ getSortKey SortField.mentions b.2 := by
      simpa [sortCmp] using hab
    rw [hb] at ha
    exact le_bot_iff.mp ha

/-- Witness for C10: a valid record with mentions text N/A keys to the
bottom sentinel. -/
theorem unparseableMentions_sentinel_witness :
    getSortKey SortField.mentions
      (TickerRecord.valid
        { prices := [], timestamps := [], price_change := 0,
          sentiment_change := 0, mentions := "N/A" }) = ⊥ :=
  (unparseableMentions_sentinel
    { prices := [], timestamps := [], price_change := 0,
      sentiment_change := 0, mentions := "N/A" } [] (by decide)).1

/-- Every entry produced by the grouping loop has a non-digit ticker. -/
theorem parseGroups_ticker_not_digit :
    ∀ (raw : List String) (sents : List ℚ) (i : ℕ) (e : RankingEntry),
      e ∈ parseGroups raw sents i → pyIsdigit e.ticker = false
  | [], _, _, e, h => absurd h (List.not_mem_nil e)
  | [r0], _, _, e, h => absurd h (List.not_mem_nil e)
  | [r0, r1], _, _, e, h => absurd h (List.not_mem_nil e)
  | r0 :: r1 :: r2 :: rest, sents, i, e, h => by
    by_cases hd : pyIsdigit r1 = true
    · have h2 : e ∈ parseGroups rest sents i := by
        have h3 : e ∈ (if pyIsdigit r1 then parseGroups rest sents i
            else { ticker := r1, mentions := r2, sentiment_change := sents.getD i 0 }
              :: parseGroups rest sents (i + 1)) := h
        rwa [if_pos hd] at h3
      exact parseGroups_ticker_not_digit rest sents i e h2
    · have h3 : e ∈ (if pyIsdigit r1 then parseGroups rest sents i
          else { ticker := r1, mentions := r2, sentiment_change := sents.getD i 0 }
            :: parseGroups rest sents (i + 1)) := h
      rw [if_neg hd] at h3
      rcases List.mem_cons.mp h3 with he | hmem
      · rw [he]
        simpa using hd
      · exact parseGroups_ticker_not_digit rest sents (i + 1) e hmem

/-- C7: the ranking parser consumes cells in groups of 3, rejects every
group whose ticker cell is a pure digit string, returns at most 10
accepted entries, and on the 3-group fixture with one digit ticker cell
yields exactly the 2 non-digit entries. -/
theorem parseTickerData_spec (raw : List String) (sents : List ℚ) :
    (parseTickerData raw sents).length ≤ 10
    ∧ (∀ e, e ∈ parseTickerData raw sents → pyIsdigit e.ticker = false)
    ∧ parseTickerData ["1", "AAPL", "150", "2", "42", "200", "3", "TSLA", "300"] [1, 2, 3]
        = [{ ticker := "AAPL", mentions := "150", sentiment_change := 1 },
           { ticker := "TSLA", mentions := "300", sentiment_change := 2 }] := by
  refine ⟨?_, ?_, by decide⟩
  · rw [parseTickerData, List.length_take]
    exact min_le_left _ _
  · intro e he
    rw [parseTickerData] at he
    exact parseGroups_ticker_not_digit raw sents 0 e (List.mem_of_mem_take he)

/-- Witness for C7 on the fixture: the first accepted entry has a
non-digit ticker and the output respects the truncation bound. -/
theorem parseTickerData_spec_witness :
    pyIsdigit "AAPL" = false
    ∧ (parseTickerData ["1", "AAPL", "150", "2", "42", "200", "3", "TSLA", "300"]
        [1, 2, 3]).length ≤ 10 :=
  ⟨(parseTickerData_spec ["1", "AAPL", "150", "2", "42", "200", "3", "TSLA", "300"]
      [1, 2, 3]).2.1 { ticker := "AAPL", mentions := "150", sentiment_change := 1 } (by decide),
   (parseTickerData_spec ["1", "AAPL", "150", "2", "42", "200", "3", "TSLA", "300"]
      [1, 2, 3]).1⟩

/-- The first index of the distinguished key in an append, for any start
offset. -/
theorem findIdx?_append_cons :
    ∀ (pre : List String) (t : String) (rest : List String) (i : ℕ), t ∉ pre →
      (pre ++ t :: rest).findIdx? (fun x => x == t) i = some (pre.length + i)
  | [], t, rest, i, _ => by simp
  | a :: l, t, rest, i, h => by
    have ha : (a == t) = false := by
      simp only [beq_eq_false_iff_ne, ne_eq]
      intro hEq
      exact h (hEq ▸ List.mem_cons_self a l)
    simp only [List.cons_append, List.findIdx?_cons, ha, Bool.false_eq_true, if_false]
    rw [List.findIdx?_succ]
    rw [findIdx?_append_cons l t rest i (fun hm => h (List.mem_cons_of_mem a hm))]
    simp [List.length_cons]
    omega

/-- Counterexample to C9: for the ticker A followed by B, get_next_ticker
returns the row id string row_B, not the ticker symbol B. -/
theorem getNextTicker_counterexample :
    getNextTicker [("A", TickerRecord.err "e1"), ("B", TickerRecord.err "e2")] "A"
      = some "row_B"
    ∧ (some "row_B" : Option String) ≠ some "B" := by
  constructor
  · decide
  · decide

/-- C9 as amended: for a ticker present in the store with a successor in
insertion order, get_next_ticker returns the successor's row id string
(the prefix row_ followed by the next ticker symbol); for the last ticker
or an absent ticker it returns absent; the lookup is a pure function of
the store, so it performs no mutation. -/
theorem getNextTicker_spec (pre post : List (String × TickerRecord))
    (t u : String) (rt ru : TickerRecord) (store : List (String × TickerRecord))
    (hpre : t ∉ pre.map Prod.fst) (habs : t ∉ store.map Prod.fst) :
    getNextTicker (pre ++ (t, rt) :: (u, ru) :: post) t = some ("row_" ++ u)
    ∧ getNextTicker (pre ++ [(t, rt)]) t = none
    ∧ getNextTicker store t = none := by
  refine ⟨?_, ?_, ?_⟩
  · have hidx : ((pre ++ (t, rt) :: (u, ru) :: post).map Prod.fst).findIdx?
        (fun x => x == t) 0 = some pre.length := by
      have h := findIdx?_append_cons (pre.map Prod.fst) t (u :: post.map Prod.fst) 0 hpre
      simpa using h
    have hget : ((pre ++ (t, rt) :: (u, ru) :: post).map Prod.fst)[pre.length + 1]?
        = some u := by
      have hsplit : (pre ++ (t, rt) :: (u, ru) :: post).map Prod.fst
          = pre.map Prod.fst ++ t :: u :: post.map Prod.fst := by simp
      rw [hsplit, List.getElem?_append_right (by simp)]
      simp
    have hlt : pre.length < ((pre ++ (t, rt) :: (u, ru) :: post).map Prod.fst).length - 1 := by
      simp
    simp only [getNextTicker, hidx, if_pos hlt, hget]
    rfl
  · have hidx2 : ((pre ++ [(t, rt)]).map Prod.fst).findIdx? (fun x => x == t) 0
        = some pre.length := by
      have h := findIdx?_append_cons (pre.map Prod.fst) t [] 0 hpre
      simpa using h
    have hnlt : ¬(pre.length < ((pre ++ [(t, rt)]).map Prod.fst).length - 1) := by
      simp
    simp only [getNextTicker, hidx2, if_neg hnlt]
  · have hidx3 : (store.map Prod.fst).findIdx? (fun x => x == t) = none := by
      rw [List.findIdx?_eq_none_iff]
      intro x hx
      simp only [beq_eq_false_iff_ne, ne_eq]
      rintro rfl
      exact habs hx
    simp only [getNextTicker, hidx3]

/-- Witness for C9 on a two-ticker store. -/
theorem getNextTicker_spec_witness :
    getNextTicker [("A", TickerRecord.err "e1"), ("B", TickerRecord.err "e2")] "A"
      = some ("row_" ++ "B")
    ∧ getNextTicker [("A", TickerRecord.err "e1")] "A" = none
    ∧ getNextTicker [] "A" = none :=
  getNextTicker_spec [] [] "A" "B" (TickerRecord.err "e1") (TickerRecord.err "e2") []
    (by simp) (by simp)
